import Mathlib

/-!
Verification of the Flum-IPTV playback core against its specification.

The definitions below are a shallow embedding of the JavaScript source:
  * `detectStreamType`   — `PlayerManager.detectStreamType`
  * `PlayerManager.stop` / `PlayerManager.loadSync` / `PlayerManager.settleLoad`
    / `PlayerManager.handleAdapterError` / `PlayerManager.fireTimeout`
    — the orchestrator's load/stop/timeout logic (state plus an explicit
    action trace standing for the imperative effects)
  * `HlsAdapter.handleErrorEvent` — the hls.js `ERROR` event handler
  * `QualitySelector.formatLabel` / `QualitySelector.renderList`
    / `QualitySelector.updateLevels` — the quality popup
  * `StreamRecorder.start` / `StreamRecorder.handleDataAvailable`
    / `StreamRecorder.getBlob` / `StreamRecorder.sanitizeName`
    / `StreamRecorder.generateFilename` — the recorder
Strings are modelled as `List Char`; JavaScript truthiness of optional
numeric fields is modelled explicitly.
-/

/-- `hasPre needle hay`: `needle` is a prefix of `hay` (char lists). -/
def hasPre : List Char → List Char → Bool
  | [], _ => true
  | _ :: _, [] => false
  | a :: as, b :: bs => a == b && hasPre as bs

/-- `hasSub needle hay`: `needle` occurs as a contiguous substring of `hay`.
Models JavaScript `hay.includes(needle)`. -/
def hasSub (needle : List Char) : List Char → Bool
  | [] => needle.isEmpty
  | b :: bs => hasPre needle (b :: bs) || hasSub needle bs

/-- The three adapter families of the player. -/
inductive StreamType
  | hls
  | dash
  | native
deriving DecidableEq, Repr

/-- Embedding of `PlayerManager.detectStreamType` (part_009): lowercase the
URL, then test the HLS marker group, the DASH marker group, the
direct-container group, and finally default to HLS. -/
def detectStreamType (url : List Char) : StreamType :=
  let lowerUrl := url.map Char.toLower
  if hasSub ".m3u8".toList lowerUrl ||
      hasSub "format=m3u8".toList lowerUrl ||
      hasSub "/hls/".toList lowerUrl ||
      hasSub "hls.".toList lowerUrl ||
      hasSub ".m3u8?".toList lowerUrl then
    StreamType.hls
  else if hasSub ".mpd".toList lowerUrl ||
      hasSub "format=mpd".toList lowerUrl ||
      hasSub "/dash/".toList lowerUrl then
    StreamType.dash
  else if hasSub ".mp4".toList lowerUrl ||
      hasSub ".webm".toList lowerUrl ||
      hasSub ".ogg".toList lowerUrl ||
      hasSub ".mov".toList lowerUrl then
    StreamType.native
  else
    StreamType.hls

/-- Spec-side classifier, written from the (amended) specification wording:
HLS markers `.m3u8`, `format=m3u8`, `/hls/`, `hls.`; then DASH markers
`.mpd`, `format=mpd`, `/dash/`; then direct containers; else HLS. -/
def classifierSpec (url : List Char) : StreamType :=
  let lowerUrl := url.map Char.toLower
  if hasSub ".m3u8".toList lowerUrl ||
      hasSub "format=m3u8".toList lowerUrl ||
      hasSub "/hls/".toList lowerUrl ||
      hasSub "hls.".toList lowerUrl then
    StreamType.hls
  else if hasSub ".mpd".toList lowerUrl ||
      hasSub "format=mpd".toList lowerUrl ||
      hasSub "/dash/".toList lowerUrl then
    StreamType.dash
  else if hasSub ".mp4".toList lowerUrl ||
      hasSub ".webm".toList lowerUrl ||
      hasSub ".ogg".toList lowerUrl ||
      hasSub ".mov".toList lowerUrl then
    StreamType.native
  else
    StreamType.hls

theorem hasPre_append (xs ys l : List Char) (h : hasPre (xs ++ ys) l = true) :
    hasPre xs l = true := by
  induction xs generalizing l with
  | nil => rfl
  | cons a as ih =>
    cases l with
    | nil => simp [hasPre] at h
    | cons b bs =>
      simp only [List.cons_append, hasPre, Bool.and_eq_true] at h ⊢
      exact ⟨h.1, ih bs h.2⟩

theorem hasSub_append (xs ys l : List Char) (h : hasSub (xs ++ ys) l = true) :
    hasSub xs l = true := by
  induction l with
  | nil =>
    simp only [hasSub, List.isEmpty_eq_true, List.append_eq_nil] at h ⊢
    exact h.1
  | cons b bs ih =>
    simp only [hasSub, Bool.or_eq_true] at h ⊢
    cases h with
    | inl h => exact Or.inl (hasPre_append xs ys _ h)
    | inr h => exact Or.inr (ih h)

/-- **C1 counterexample.** The locator `http://x/hls/a.mpd` contains no
`.m3u8` but does contain the DASH marker `.mpd`, yet `detectStreamType`
classifies it as HLS (the code's HLS marker group also contains `/hls/`),
contradicting the claim that, absent `.m3u8`, a DASH-marked locator maps to
the DASH family. -/
theorem detectStreamType_dash_claim_fails :
    hasSub ".m3u8".toList ("http://x/hls/a.mpd".toList.map Char.toLower) = false ∧
    hasSub ".mpd".toList ("http://x/hls/a.mpd".toList.map Char.toLower) = true ∧
    detectStreamType "http://x/hls/a.mpd".toList = StreamType.hls := by
  refine ⟨?_, ?_, ?_⟩ <;> decide

/-- **C1 (amended).** `detectStreamType` classifies by the marker groups in
order: HLS markers (`.m3u8`, `format=m3u8`, `/hls/`, `hls.`, any case)
first, then DASH markers (`.mpd`, `format=mpd`, `/dash/`), then the direct
container extensions (`.mp4`, `.webm`, `.ogg`, `.mov`), and defaults to HLS
for unmarked locators. -/
theorem detectStreamType_eq_classifierSpec (url : List Char) :
    detectStreamType url = classifierSpec url := by
  by_cases hq : hasSub ".m3u8?".toList (url.map Char.toLower) = true
  · have h5 : hasSub ".m3u8".toList (url.map Char.toLower) = true := by
      have he : ".m3u8".toList ++ "?".toList = ".m3u8?".toList := by decide
      exact hasSub_append ".m3u8".toList "?".toList _ (he ▸ hq)
    have h5L : hasSub ['.', 'm', '3', 'u', '8'] (url.map Char.toLower) = true := h5
    simp [detectStreamType, classifierSpec, h5L]
  · simp only [Bool.not_eq_true] at hq
    have hqL : hasSub ['.', 'm', '3', 'u', '8', '?'] (url.map Char.toLower) = false := hq
    simp [detectStreamType, classifierSpec, hqL]

/-- An error value as seen by the orchestrator: dash/hls error events carry a
`fatal` flag; plain `Error` objects (such as the load-timeout rejection) have
no `fatal` field, modelled as `fatal = false`. -/
structure PMError where
  fatal : Bool
  msg : List Char
deriving DecidableEq, Repr

/-- The rejection produced by the load-timeout timer: `new Error('Load timeout')`. -/
def loadTimeoutError : PMError :=
  { fatal := false, msg := "Load timeout".toList }

/-- Imperative effects of the orchestrator, recorded as an explicit trace. -/
inductive PMAction
  | cancelLoadTimeout
  | destroyAdapter (t : StreamType)
  | videoCleanup
  | selectAdapter (t : StreamType)
  | attachEvents (t : StreamType)
  | beginAdapterLoad (t : StreamType) (url : List Char)
  | armTimeout (ms : Nat)
  | callOnError (e : PMError)
deriving DecidableEq, Repr

/-- The orchestrator's mutable fields relevant to load/stop/timeout. -/
structure PMState where
  currentAdapter : Option StreamType
  currentUrl : Option (List Char)
  loadTimeoutId : Option Nat
deriving DecidableEq, Repr

/-- Embedding of `PlayerManager.stop` (part_009): cancel a pending load
timeout, destroy the current adapter if any, clean up the video element and
clear the URL.  Returns the new state and the trace of effects, in program
order. -/
def PlayerManager.stop (s : PMState) : PMState × List PMAction :=
  let cancelActs : List PMAction :=
    match s.loadTimeoutId with
    | some _ => [PMAction.cancelLoadTimeout]
    | none => []
  let destroyActs : List PMAction :=
    match s.currentAdapter with
    | some t => [PMAction.destroyAdapter t]
    | none => []
  ({ currentAdapter := none, currentUrl := none, loadTimeoutId := none },
    cancelActs ++ destroyActs ++ [PMAction.videoCleanup])

/-- Embedding of the synchronous prefix of `PlayerManager.load` (part_009),
up to the point where the race is awaited: stop the current playback, detect
the stream type, select the adapter, attach the event forwarders, begin the
adapter's `load(url)`, and arm the 30000 ms timeout (`timerId` stands for the
value returned by `setTimeout`). -/
def PlayerManager.loadSync (s : PMState) (url : List Char) (timerId : Nat) :
    PMState × List PMAction :=
  let stopped := PlayerManager.stop s
  let t := detectStreamType url
  let s2 := { stopped.1 with currentAdapter := some t, currentUrl := some url }
  let s3 := { s2 with loadTimeoutId := some timerId }
  (s3, stopped.2 ++
    [PMAction.selectAdapter t, PMAction.attachEvents t,
     PMAction.beginAdapterLoad t url, PMAction.armTimeout 30000])

/-- Which of the raced promises settles the `Promise.race` first. -/
inductive RaceWinner
  | adapterResolved
  | adapterRejected (e : PMError)
  | timeoutFired
deriving DecidableEq, Repr

/-- Embedding of the `try`/`catch` tail of `PlayerManager.load` (part_009):
on adapter success the pending timeout is cleared and `load` returns `true`;
on any rejection (adapter failure or the timeout firing) `onError` is invoked
with the rejection and `load` returns `false`.  No branch destroys the
adapter. -/
def PlayerManager.settleLoad (s : PMState) (w : RaceWinner) :
    PMState × List PMAction × Bool :=
  match w with
  | RaceWinner.adapterResolved =>
    match s.loadTimeoutId with
    | some _ => ({ s with loadTimeoutId := none }, [PMAction.cancelLoadTimeout], true)
    | none => (s, [], true)
  | RaceWinner.adapterRejected e => (s, [PMAction.callOnError e], false)
  | RaceWinner.timeoutFired => (s, [PMAction.callOnError loadTimeoutError], false)

/-- Embedding of the `onError` forwarder installed by
`PlayerManager.setupAdapterEvents` (part_009): a fatal adapter error cancels
the pending load timeout, then the error is forwarded to the caller's
`onError`. -/
def PlayerManager.handleAdapterError (s : PMState) (e : PMError) :
    PMState × List PMAction :=
  let cleared :=
    if e.fatal then
      match s.loadTimeoutId with
      | some _ => ({ s with loadTimeoutId := none }, [PMAction.cancelLoadTimeout])
      | none => (s, ([] : List PMAction))
    else (s, ([] : List PMAction))
  (cleared.1, cleared.2 ++ [PMAction.callOnError e])

/-- The load-timeout timer firing: `setTimeout`'s callback rejects the race
with the load-timeout error, but only if the timer was not cancelled by
`clearTimeout` (modelled by `loadTimeoutId` still being set). -/
def PlayerManager.fireTimeout (s : PMState) : PMState × List PMAction :=
  match s.loadTimeoutId with
  | some _ => (s, [PMAction.callOnError loadTimeoutError])
  | none => (s, [])

/-- **C2.** A `load(url)` call first performs the whole `stop()` sequence —
which cancels any pending load timeout and destroys the currently active
adapter — and only afterwards selects the new adapter and begins its load:
the destroy appears in the `stop` prefix of the trace, no adapter load
begins inside that prefix, the intermediate state has no active adapter, and
the final state holds exactly the newly selected adapter. -/
theorem PlayerManager.load_destroys_prior_adapter (s : PMState)
    (url : List Char) (timerId : Nat) (a : StreamType) (n : Nat)
    (ha : s.currentAdapter = some a) (hn : s.loadTimeoutId = some n) :
    (PlayerManager.loadSync s url timerId).2 =
      (PlayerManager.stop s).2 ++
        [PMAction.selectAdapter (detectStreamType url),
         PMAction.attachEvents (detectStreamType url),
         PMAction.beginAdapterLoad (detectStreamType url) url,
         PMAction.armTimeout 30000] ∧
    PMAction.destroyAdapter a ∈ (PlayerManager.stop s).2 ∧
    PMAction.cancelLoadTimeout ∈ (PlayerManager.stop s).2 ∧
    (∀ t u, PMAction.beginAdapterLoad t u ∉ (PlayerManager.stop s).2) ∧
    ((PlayerManager.stop s).1).currentAdapter = none ∧
    ((PlayerManager.loadSync s url timerId).1).currentAdapter =
      some (detectStreamType url) := by
  refine ⟨rfl, ?_, ?_, ?_, rfl, rfl⟩
  · simp [PlayerManager.stop, ha, hn]
  · simp [PlayerManager.stop, ha, hn]
  · intro t u
    simp [PlayerManager.stop, ha, hn]

/-- Witness for C2 at a concrete state: an active DASH adapter and a pending
timer are both torn down by the `stop` prefix of `load`. -/
theorem PlayerManager.load_destroys_prior_adapter_witness :
    PMAction.destroyAdapter StreamType.dash ∈
      (PlayerManager.stop
        { currentAdapter := some StreamType.dash,
          currentUrl := some "http://a/old.mpd".toList,
          loadTimeoutId := some 7 }).2 ∧
    PMAction.cancelLoadTimeout ∈
      (PlayerManager.stop
        { currentAdapter := some StreamType.dash,
          currentUrl := some "http://a/old.mpd".toList,
          loadTimeoutId := some 7 }).2 :=
  have h := PlayerManager.load_destroys_prior_adapter
    { currentAdapter := some StreamType.dash,
      currentUrl := some "http://a/old.mpd".toList,
      loadTimeoutId := some 7 }
    "http://b/new.m3u8".toList 9 StreamType.dash 7 rfl rfl
  ⟨h.2.1, h.2.2.1⟩

/-- **C3.** When the timeout wins the race, `load` settles as a failure:
`onError` is invoked with exactly the load-timeout error and `load` returns
`false`, while the adapter is left running — the trace contains no
`destroyAdapter` and the state still holds the active adapter. -/
theorem PlayerManager.load_timeout_leaves_adapter (s : PMState) (a : StreamType)
    (ha : s.currentAdapter = some a) :
    (PlayerManager.settleLoad s RaceWinner.timeoutFired).2.2 = false ∧
    (PlayerManager.settleLoad s RaceWinner.timeoutFired).2.1 =
      [PMAction.callOnError loadTimeoutError] ∧
    (∀ t, PMAction.destroyAdapter t ∉
      (PlayerManager.settleLoad s RaceWinner.timeoutFired).2.1) ∧
    ((PlayerManager.settleLoad s RaceWinner.timeoutFired).1).currentAdapter =
      some a := by
  refine ⟨rfl, rfl, ?_, ha⟩
  intro t
  simp [PlayerManager.settleLoad]

/-- Witness for C3: a concrete mid-load state with an active HLS adapter; the
timeout path reports the load-timeout error, returns `false`, and the adapter
stays active. -/
theorem PlayerManager.load_timeout_leaves_adapter_witness :
    (PlayerManager.settleLoad
        { currentAdapter := some StreamType.hls,
          currentUrl := some "http://a/live.m3u8".toList,
          loadTimeoutId := some 3 } RaceWinner.timeoutFired).2.2 = false ∧
    ((PlayerManager.settleLoad
        { currentAdapter := some StreamType.hls,
          currentUrl := some "http://a/live.m3u8".toList,
          loadTimeoutId := some 3 } RaceWinner.timeoutFired).1).currentAdapter =
      some StreamType.hls :=
  have h := PlayerManager.load_timeout_leaves_adapter
    { currentAdapter := some StreamType.hls,
      currentUrl := some "http://a/live.m3u8".toList,
      loadTimeoutId := some 3 } StreamType.hls rfl
  ⟨h.1, h.2.2.2⟩

/-- **C4.** A fatal adapter error arriving while the load timeout is still
pending cancels the timeout and forwards exactly the adapter's error detail
to the caller; afterwards the timer can no longer fire, so no duplicate
load-timeout error is ever produced for that load. -/
theorem PlayerManager.fatal_error_cancels_timeout (s : PMState) (e : PMError)
    (n : Nat) (hf : e.fatal = true) (hn : s.loadTimeoutId = some n) :
    (PlayerManager.handleAdapterError s e).2 =
      [PMAction.cancelLoadTimeout, PMAction.callOnError e] ∧
    ((PlayerManager.handleAdapterError s e).1).loadTimeoutId = none ∧
    (PlayerManager.fireTimeout (PlayerManager.handleAdapterError s e).1).2 = [] ∧
    PMAction.callOnError loadTimeoutError ∉
      (PlayerManager.handleAdapterError s e).2 := by
  have h1 : (PlayerManager.handleAdapterError s e).2 =
      [PMAction.cancelLoadTimeout, PMAction.callOnError e] := by
    simp [PlayerManager.handleAdapterError, hf, hn]
  have h2 : ((PlayerManager.handleAdapterError s e).1).loadTimeoutId = none := by
    simp [PlayerManager.handleAdapterError, hf, hn]
  refine ⟨h1, h2, ?_, ?_⟩
  · simp [PlayerManager.fireTimeout, h2]
  · rw [h1]
    have hne : loadTimeoutError ≠ e := by
      intro he
      rw [← he] at hf
      exact Bool.false_ne_true (by simp [loadTimeoutError] at hf)
    simp [hne]

/-- Witness for C4: a concrete fatal manifest-parse error with timer id 2
pending; the timeout is cancelled, the adapter's detail is forwarded, and a
subsequent timer tick emits nothing. -/
theorem PlayerManager.fatal_error_cancels_timeout_witness :
    ((PlayerManager.handleAdapterError
        { currentAdapter := some StreamType.hls,
          currentUrl := some "http://a/live.m3u8".toList,
          loadTimeoutId := some 2 }
        { fatal := true, msg := "manifestParseError".toList }).1).loadTimeoutId =
      none ∧
    (PlayerManager.fireTimeout
      (PlayerManager.handleAdapterError
        { currentAdapter := some StreamType.hls,
          currentUrl := some "http://a/live.m3u8".toList,
          loadTimeoutId := some 2 }
        { fatal := true, msg := "manifestParseError".toList }).1).2 = [] :=
  have h := PlayerManager.fatal_error_cancels_timeout
    { currentAdapter := some StreamType.hls,
      currentUrl := some "http://a/live.m3u8".toList,
      loadTimeoutId := some 2 }
    { fatal := true, msg := "manifestParseError".toList } 2 rfl rfl
  ⟨h.2.1, h.2.2.1⟩

/-- hls.js error classes as discriminated by the handler: network errors,
media errors, and everything else. -/
inductive HlsErrorType
  | networkError
  | mediaError
  | otherError
deriving DecidableEq, Repr

/-- The payload of an hls.js `ERROR` event: error class, fatality flag and
a details string. -/
structure HlsErrorData where
  type : HlsErrorType
  fatal : Bool
  details : List Char
deriving DecidableEq, Repr

/-- Effects of the hls.js `ERROR` event handler. -/
inductive HlsAction
  | surfaceError (d : HlsErrorData)
  | startLoad
  | recoverMediaError
  | destroyEngine
  | rejectLoad (t : HlsErrorType) (details : List Char)
deriving DecidableEq, Repr

/-- Embedding of the `Hls.Events.ERROR` handler inside `HlsAdapter.load`
(part_009).  `resolved` is the handler's captured `resolved` flag; the result
is the new value of that flag together with the effect trace: non-fatal
events do nothing; fatal events first surface the error data through
`onError`, then a fatal network error restarts loading, a fatal media error
recovers the media pipeline, and any other fatal error (if the load promise
is unsettled) destroys the engine and rejects the load. -/
def HlsAdapter.handleErrorEvent (resolved : Bool) (d : HlsErrorData) :
    Bool × List HlsAction :=
  if d.fatal then
    let surfaced := [HlsAction.surfaceError d]
    match d.type with
    | HlsErrorType.networkError => (resolved, surfaced ++ [HlsAction.startLoad])
    | HlsErrorType.mediaError => (resolved, surfaced ++ [HlsAction.recoverMediaError])
    | HlsErrorType.otherError =>
      if resolved then (resolved, surfaced)
      else (true, surfaced ++ [HlsAction.destroyEngine, HlsAction.rejectLoad d.type d.details])
  else (resolved, [])

/-- **C5 counterexample.** A fatal network error is surfaced to the caller
and retried via `startLoad` without destroying the adapter's engine, and a
non-fatal error triggers no retry or recovery at all — contradicting the
claim that non-fatal errors are retried internally while every fatal error
destroys internal state. -/
theorem hls_fatal_network_not_destroyed :
    (HlsErrorData.mk HlsErrorType.networkError true "fragLoadError".toList).fatal
        = true ∧
    HlsAction.destroyEngine ∉
      (HlsAdapter.handleErrorEvent false
        (HlsErrorData.mk HlsErrorType.networkError true "fragLoadError".toList)).2 ∧
    HlsAction.surfaceError
        (HlsErrorData.mk HlsErrorType.networkError true "fragLoadError".toList) ∈
      (HlsAdapter.handleErrorEvent false
        (HlsErrorData.mk HlsErrorType.networkError true "fragLoadError".toList)).2 ∧
    (HlsAdapter.handleErrorEvent false
        (HlsErrorData.mk HlsErrorType.networkError false "bufferStall".toList)).2
      = [] := by
  refine ⟨rfl, ?_, ?_, rfl⟩ <;> decide

/-- **C5 (amended).** In the HLS adapter, non-fatal engine error events are
ignored (no retry, no recovery, nothing surfaced); every fatal error is
surfaced to the caller through `onError`; a fatal network error additionally
triggers an internal reload (`startLoad`), a fatal media error triggers a
recover-media-pipeline call, and any other fatal error — when the load is
not yet settled — destroys the adapter's engine and rejects the load. -/
theorem HlsAdapter.error_policy (resolved : Bool) (d : HlsErrorData) :
    ((HlsAdapter.handleErrorEvent resolved d).2 = [] ↔ d.fatal = false) ∧
    (HlsAction.surfaceError d ∈ (HlsAdapter.handleErrorEvent resolved d).2 ↔
      d.fatal = true) ∧
    (HlsAction.startLoad ∈ (HlsAdapter.handleErrorEvent resolved d).2 ↔
      d.fatal = true ∧ d.type = HlsErrorType.networkError) ∧
    (HlsAction.recoverMediaError ∈ (HlsAdapter.handleErrorEvent resolved d).2 ↔
      d.fatal = true ∧ d.type = HlsErrorType.mediaError) ∧
    (HlsAction.destroyEngine ∈ (HlsAdapter.handleErrorEvent resolved d).2 ↔
      d.fatal = true ∧ d.type = HlsErrorType.otherError ∧ resolved = false) ∧
    (HlsAction.rejectLoad d.type d.details ∈
        (HlsAdapter.handleErrorEvent resolved d).2 ↔
      d.fatal = true ∧ d.type = HlsErrorType.otherError ∧ resolved = false) := by
  obtain ⟨t, f, det⟩ := d
  cases f <;> cases t <;> cases resolved <;>
    simp [HlsAdapter.handleErrorEvent]

/-- A normalized quality level as produced by `getQualityLevels`:
index into the adapter's rendition list plus optional height, width and
bitrate.  `none` models a missing (`undefined`) field. -/
structure QualityLevel where
  index : Nat
  height : Option Nat
  width : Option Nat
  bitrate : Option Nat
deriving DecidableEq, Repr

/-- JavaScript truthiness of an optional numeric field: `undefined` and `0`
are falsy. -/
def jsTruthyNum : Option Nat → Bool
  | none => false
  | some n => decide (n ≠ 0)

/-- `level.height || 0`, the sort key used by the quality popup. -/
def heightKey (l : QualityLevel) : Nat :=
  l.height.getD 0

/-- The text of one option in the quality popup, by provenance:
the Auto entry, a `${h}p` resolution label, an `x.y Mbps` label,
a `k kbps` label, or the `Level ${i}` fallback. -/
inductive QualityLabel
  | auto
  | res (h : Nat)
  | mbps (kbps : Nat)
  | kbps (k : Nat)
  | levelIndex (i : Nat)
deriving DecidableEq, Repr

namespace QualitySelector

/-- Embedding of `QualitySelector.formatLabel` (quality-selector.js): a
truthy height yields `${height}p`; otherwise a truthy bitrate yields
`Math.round(bitrate / 1000)` kbps, rendered in Mbps when at least 1000;
otherwise the `Level ${index}` fallback.  `Math.round(b / 1000)` on a
nonnegative integer is `(b + 500) / 1000` in integer division. -/
def formatLabel (l : QualityLevel) : QualityLabel :=
  if jsTruthyNum l.height then
    QualityLabel.res (l.height.getD 0)
  else if jsTruthyNum l.bitrate then
    let k := (l.bitrate.getD 0 + 500) / 1000
    if 1000 ≤ k then QualityLabel.mbps k else QualityLabel.kbps k
  else
    QualityLabel.levelIndex l.index

/-- Embedding of the list built by `QualitySelector.render`
(quality-selector.js): the Auto option first, then the levels sorted by
`(b.height || 0) - (a.height || 0)` — descending height, stable, as
JavaScript `Array.prototype.sort` — each rendered through `formatLabel`. -/
def renderList (levels : List QualityLevel) : List QualityLabel :=
  QualityLabel.auto ::
    (List.insertionSort (fun a b => heightKey b ≤ heightKey a) levels).map formatLabel

/-- A label derived from the level's height. -/
def isResLabel : QualityLabel → Bool
  | QualityLabel.res _ => true
  | _ => false

/-- A label derived from the level's bitrate. -/
def isBitrateLabel : QualityLabel → Bool
  | QualityLabel.mbps _ => true
  | QualityLabel.kbps _ => true
  | _ => false

/-- The generic index fallback label. -/
def isIndexLabel : QualityLabel → Bool
  | QualityLabel.levelIndex _ => true
  | _ => false

end QualitySelector

/-- **C6 counterexample.** A level with neither height nor bitrate is
rendered as the generic `Level 0` fallback, not as a bitrate-derived label,
contradicting the claim that every level lacking a height gets a
bitrate-derived label. -/
theorem formatLabel_no_bitrate_fallback :
    (QualityLevel.mk 0 none none none).height = none ∧
    QualitySelector.formatLabel (QualityLevel.mk 0 none none none) =
      QualityLabel.levelIndex 0 ∧
    QualitySelector.isBitrateLabel
      (QualitySelector.formatLabel (QualityLevel.mk 0 none none none)) = false := by
  refine ⟨rfl, ?_, ?_⟩ <;> decide

/-- **C6 (amended).** The rendered quality list is the Auto option first,
followed by the adapter's levels sorted descending by height (missing
heights sorting as `0`), where a level with a truthy height gets a
resolution label, a level without a truthy height but with a truthy bitrate
gets a bitrate-derived label, and a level with neither gets the generic
level-index label. -/
theorem QualitySelector.renderList_spec (levels : List QualityLevel) :
    ∃ s : List QualityLevel,
      QualitySelector.renderList levels =
        QualityLabel.auto :: s.map QualitySelector.formatLabel ∧
      s.Perm levels ∧
      List.Sorted (fun a b => heightKey b ≤ heightKey a) s ∧
      (∀ l : QualityLevel,
        QualitySelector.isResLabel (QualitySelector.formatLabel l) =
          jsTruthyNum l.height) ∧
      (∀ l : QualityLevel,
        QualitySelector.isBitrateLabel (QualitySelector.formatLabel l) =
          (!jsTruthyNum l.height && jsTruthyNum l.bitrate)) ∧
      (∀ l : QualityLevel,
        QualitySelector.isIndexLabel (QualitySelector.formatLabel l) =
          (!jsTruthyNum l.height && !jsTruthyNum l.bitrate)) := by
  haveI : IsTotal QualityLevel (fun a b => heightKey b ≤ heightKey a) :=
    ⟨fun a b => le_total (heightKey b) (heightKey a)⟩
  haveI : IsTrans QualityLevel (fun a b => heightKey b ≤ heightKey a) :=
    ⟨fun _ _ _ hab hbc => le_trans hbc hab⟩
  refine ⟨List.insertionSort (fun a b => heightKey b ≤ heightKey a) levels,
    rfl, List.perm_insertionSort _ levels, List.sorted_insertionSort _ levels,
    ?_, ?_, ?_⟩ <;>
  · intro l
    rcases hh : jsTruthyNum l.height <;> rcases hb : jsTruthyNum l.bitrate <;>
      simp only [QualitySelector.formatLabel, hh, hb, Bool.false_eq_true,
        if_false, if_true, Bool.not_false, Bool.not_true, Bool.false_and,
        Bool.true_and, Bool.and_false, Bool.and_true] <;>
      first
        | rfl
        | (split <;> rfl)

/-- The quality selector's mutable fields (quality-selector.js): whether a
player manager was attached by `initialize`, the cached levels, the current
selection (`-1` = Auto), and the visibility of the quality button. -/
structure QSState where
  hasPlayerManager : Bool
  levels : List QualityLevel
  currentQuality : Int
  buttonHidden : Bool
deriving DecidableEq, Repr

/-- Embedding of `QualitySelector.updateLevels` (quality-selector.js):
without a player manager it is a no-op; otherwise it stores the freshly
fetched levels, resets the selection to Auto (`-1`), and hides the button
when at most one level is available (showing it and re-rendering
otherwise). -/
def QualitySelector.updateLevels (s : QSState) (fetched : List QualityLevel) :
    QSState :=
  if s.hasPlayerManager then
    let s1 := { s with levels := fetched, currentQuality := -1 }
    if fetched.length ≤ 1 then { s1 with buttonHidden := true }
    else { s1 with buttonHidden := false }
  else s

/-- **C7.** Whenever quality levels for a newly loaded stream become
available, `updateLevels` stores them and resets the current selection to
Auto (`-1`), whatever the previous selection was. -/
theorem QualitySelector.updateLevels_resets_to_auto (s : QSState)
    (fetched : List QualityLevel) (hpm : s.hasPlayerManager = true) :
    (QualitySelector.updateLevels s fetched).currentQuality = -1 ∧
    (QualitySelector.updateLevels s fetched).levels = fetched := by
  unfold QualitySelector.updateLevels
  rw [hpm]
  by_cases hl : fetched.length ≤ 1 <;> simp [hl]

/-- Witness for C7: with level 2 of the previous stream selected, fetching
the two levels of a new stream resets the selection to Auto. -/
theorem QualitySelector.updateLevels_resets_to_auto_witness :
    (QualitySelector.updateLevels
        { hasPlayerManager := true,
          levels := [],
          currentQuality := 2,
          buttonHidden := false }
        [QualityLevel.mk 0 (some 1080) (some 1920) (some 5000000),
         QualityLevel.mk 1 (some 720) (some 1280) (some 2500000)]).currentQuality
      = -1 :=
  (QualitySelector.updateLevels_resets_to_auto
    { hasPlayerManager := true,
      levels := [],
      currentQuality := 2,
      buttonHidden := false }
    [QualityLevel.mk 0 (some 1080) (some 1920) (some 5000000),
     QualityLevel.mk 1 (some 720) (some 1280) (some 2500000)] rfl).1

/-- A recorded media chunk: the `Blob` delivered by a `dataavailable` event,
with its byte size and an abstract payload identity. -/
structure Chunk where
  size : Nat
  payload : Nat
deriving DecidableEq, Repr

/-- The ambient conditions `StreamRecorder.canRecord` reads from the video
element and the platform. -/
structure RecorderEnv where
  videoPresent : Bool
  videoPaused : Bool
  readyState : Nat
  mediaRecorderSupported : Bool
deriving DecidableEq, Repr

/-- The recorder's mutable fields (part_010). -/
structure RecorderState where
  recording : Bool
  recordedChunks : List Chunk
  hasMediaRecorder : Bool
  hasStream : Bool
  startTime : Option Nat
deriving DecidableEq, Repr

/-- Callbacks the recorder may invoke while starting. -/
inductive RecorderCallback
  | onStartCb
  | onErrorCb
deriving DecidableEq, Repr

namespace StreamRecorder

/-- Embedding of `StreamRecorder.canRecord` (part_010): the video element
exists, is not paused, has `readyState >= 2`, and `MediaRecorder` with
VP8/Opus is supported. -/
def canRecord (env : RecorderEnv) : Bool :=
  env.videoPresent && !env.videoPaused && decide (2 ≤ env.readyState) &&
    env.mediaRecorderSupported

/-- Embedding of `StreamRecorder.start` (part_010): if already recording,
return `false` immediately and untouched; if the preconditions fail, invoke
`onError` and return `false` with the state untouched; otherwise capture the
stream, create the media recorder, reset the chunk buffer to empty, mark
recording, stamp the start time (`now`), invoke `onStart` and return `true`. -/
def start (env : RecorderEnv) (now : Nat) (s : RecorderState) :
    RecorderState × Bool × List RecorderCallback :=
  if s.recording then
    (s, false, [])
  else if !canRecord env then
    (s, false, [RecorderCallback.onErrorCb])
  else
    ({ recording := true, recordedChunks := [], hasMediaRecorder := true,
       hasStream := true, startTime := some now },
      true, [RecorderCallback.onStartCb])

/-- Embedding of the `ondataavailable` handler installed by `start`
(part_010): a chunk is appended to `recordedChunks` only when its size is
positive. -/
def handleDataAvailable (s : RecorderState) (c : Chunk) : RecorderState :=
  if 0 < c.size then { s with recordedChunks := s.recordedChunks ++ [c] }
  else s

/-- Embedding of `StreamRecorder.getBlob` (part_010): `null` when no chunks
were accumulated, otherwise the blob concatenating the accumulated chunks in
order. -/
def getBlob (s : RecorderState) : Option (List Chunk) :=
  if s.recordedChunks.isEmpty then none else some s.recordedChunks

end StreamRecorder

/-- **C8.** Calling `start` while a recording job is active returns `false`
without invoking any callback and leaves the state — accumulated chunks,
media recorder, capture stream, recording flag, start time — untouched. -/
theorem StreamRecorder.start_while_recording_fails (env : RecorderEnv)
    (now : Nat) (s : RecorderState) (hrec : s.recording = true) :
    StreamRecorder.start env now s = (s, false, []) := by
  unfold StreamRecorder.start
  rw [hrec]
  rfl

/-- Witness for C8: a job with two accumulated chunks is running; a second
`start` fails and leaves the state intact. -/
theorem StreamRecorder.start_while_recording_fails_witness :
    StreamRecorder.start
        { videoPresent := true, videoPaused := false, readyState := 4,
          mediaRecorderSupported := true } 90
        { recording := true,
          recordedChunks := [Chunk.mk 512 0, Chunk.mk 1024 1],
          hasMediaRecorder := true, hasStream := true, startTime := some 10 } =
      ({ recording := true,
         recordedChunks := [Chunk.mk 512 0, Chunk.mk 1024 1],
         hasMediaRecorder := true, hasStream := true, startTime := some 10 },
        false, []) :=
  StreamRecorder.start_while_recording_fails
    { videoPresent := true, videoPaused := false, readyState := 4,
      mediaRecorderSupported := true } 90
    { recording := true,
      recordedChunks := [Chunk.mk 512 0, Chunk.mk 1024 1],
      hasMediaRecorder := true, hasStream := true, startTime := some 10 } rfl

theorem StreamRecorder.foldl_handleDataAvailable (cs : List Chunk)
    (s : RecorderState) :
    (cs.foldl StreamRecorder.handleDataAvailable s).recordedChunks =
      s.recordedChunks ++ cs.filter (fun c => 0 < c.size) := by
  induction cs generalizing s with
  | nil => simp
  | cons c cs ih =>
    by_cases hc : 0 < c.size
    · simp [List.foldl_cons, StreamRecorder.handleDataAvailable, hc, ih,
        List.filter_cons]
    · simp [List.foldl_cons, StreamRecorder.handleDataAvailable, hc, ih,
        List.filter_cons]

/-- **C10.** A successful `start` resets the chunk buffer to empty, and after
any sequence of `dataavailable` events the buffer holds exactly that job's
positive-size chunks in capture order, so `getBlob` returns exactly those
chunks (or `null` when none) and never data from an earlier recording. -/
theorem StreamRecorder.start_isolates_job (env : RecorderEnv) (now : Nat)
    (s : RecorderState) (cs : List Chunk) (hrec : s.recording = false)
    (hcan : StreamRecorder.canRecord env = true) :
    (StreamRecorder.start env now s).2.1 = true ∧
    ((StreamRecorder.start env now s).1).recordedChunks = [] ∧
    (cs.foldl StreamRecorder.handleDataAvailable
        (StreamRecorder.start env now s).1).recordedChunks =
      cs.filter (fun c => 0 < c.size) ∧
    StreamRecorder.getBlob
        (cs.foldl StreamRecorder.handleDataAvailable
          (StreamRecorder.start env now s).1) =
      (if (cs.filter (fun c => 0 < c.size)).isEmpty then none
        else some (cs.filter (fun c => 0 < c.size))) := by
  have hs1 : (StreamRecorder.start env now s).1 =
      { recording := true, recordedChunks := [], hasMediaRecorder := true,
        hasStream := true, startTime := some now } := by
    unfold StreamRecorder.start
    rw [hrec, hcan]
    rfl
  have hret : (StreamRecorder.start env now s).2.1 = true := by
    unfold StreamRecorder.start
    rw [hrec, hcan]
    rfl
  have hfold := StreamRecorder.foldl_handleDataAvailable cs
    { recording := true, recordedChunks := [], hasMediaRecorder := true,
      hasStream := true, startTime := some now }
  simp only [List.nil_append] at hfold
  refine ⟨hret, by rw [hs1], ?_, ?_⟩
  · rw [hs1]
    exact hfold
  · unfold StreamRecorder.getBlob
    rw [hs1, hfold]

/-- Witness for C10 at concrete inputs: starting over a stale buffer clears
it, and three events (one empty) accumulate exactly the two non-empty chunks
in order. -/
theorem StreamRecorder.start_isolates_job_witness :
    (([Chunk.mk 7 1, Chunk.mk 0 2, Chunk.mk 9 3].foldl
        StreamRecorder.handleDataAvailable
        (StreamRecorder.start
          { videoPresent := true, videoPaused := false, readyState := 3,
            mediaRecorderSupported := true } 42
          { recording := false,
            recordedChunks := [Chunk.mk 1000 99],
            hasMediaRecorder := false, hasStream := false,
            startTime := none }).1).recordedChunks =
      [Chunk.mk 7 1, Chunk.mk 9 3]) ∧
    ((StreamRecorder.start
        { videoPresent := true, videoPaused := false, readyState := 3,
          mediaRecorderSupported := true } 42
        { recording := false,
          recordedChunks := [Chunk.mk 1000 99],
          hasMediaRecorder := false, hasStream := false,
          startTime := none }).1).recordedChunks = [] := by
  have h := StreamRecorder.start_isolates_job
    { videoPresent := true, videoPaused := false, readyState := 3,
      mediaRecorderSupported := true } 42
    { recording := false,
      recordedChunks := [Chunk.mk 1000 99],
      hasMediaRecorder := false, hasStream := false, startTime := none }
    [Chunk.mk 7 1, Chunk.mk 0 2, Chunk.mk 9 3] rfl rfl
  exact ⟨by rw [h.2.2.1]; rfl, h.2.1⟩

/-- The character class matched by JavaScript `\s`: ASCII whitespace,
NBSP, the Unicode space separators, line/paragraph separators and the BOM. -/
def jsWhitespace (c : Char) : Bool :=
  [' ', '\t', '\n', '\x0b', '\x0c', '\r', ' ', ' ', ' ',
   ' ', ' ', ' ', ' ', ' ', ' ', ' ',
   ' ', ' ', ' ', ' ', ' ', ' ', ' ',
   '　', '﻿'].contains c

/-- The character class `[<>:"/\\|?*]` removed by `generateFilename`'s first
replace: the Windows-reserved filename characters, including both path
separators. -/
def reservedFileChar (c : Char) : Bool :=
  ['<', '>', ':', '"', '/', '\\', '|', '?', '*'].contains c

/-- Embedding of the global regex replace `.replace(/\s+/g, '_')`: scan the
characters, emitting `_` at the first character of each whitespace run
(`prevWs` says whether the previous character was part of a run). -/
def collapseWsGo : Bool → List Char → List Char
  | _, [] => []
  | prevWs, c :: cs =>
    if jsWhitespace c then
      if prevWs then collapseWsGo true cs
      else '_' :: collapseWsGo true cs
    else c :: collapseWsGo false cs

/-- Run-based reading of whitespace collapsing, written from the spec's
words: each maximal whitespace run is replaced by a single `_`. -/
def collapseRuns : List Char → List Char
  | [] => []
  | c :: cs =>
    if jsWhitespace c then '_' :: collapseRuns (cs.dropWhile jsWhitespace)
    else c :: collapseRuns cs
termination_by l => l.length
decreasing_by
  · simp only [List.length_cons]
    exact Nat.lt_succ_of_le (List.IsSuffix.length_le (List.dropWhile_suffix _))
  · simp only [List.length_cons]
    exact Nat.lt_succ_self _

namespace StreamRecorder

/-- Embedding of the `safeName` computation in `StreamRecorder.generateFilename`
(part_010): strip the reserved filename characters, collapse whitespace runs
to `_`, and truncate to 50 characters. -/
def sanitizeName (channelName : List Char) : List Char :=
  (collapseWsGo false
    (channelName.filter (fun c => !reservedFileChar c))).take 50

/-- `.replace('T', '_')` — a string-pattern replace rewrites only the first
occurrence. -/
def replaceFirstT : List Char → List Char
  | [] => []
  | c :: cs => if c == 'T' then '_' :: cs else c :: replaceFirstT cs

/-- Embedding of the `timestamp` computation in `generateFilename`
(part_010), as a function of the ISO-8601 rendering of the current date:
`:` and `.` become `-`, the first `T` becomes `_`, truncated to 19
characters. -/
def tsSanitize (iso : List Char) : List Char :=
  (replaceFirstT
    (iso.map (fun c => if c == ':' || c == '.' then '-' else c))).take 19

/-- Embedding of `StreamRecorder.generateFilename` (part_010):
`${safeName}_${timestamp}.webm`. -/
def generateFilename (channelName iso : List Char) : List Char :=
  sanitizeName channelName ++ '_' :: (tsSanitize iso ++ ".webm".toList)

end StreamRecorder

theorem collapseWsGo_true_dropWhile (l : List Char) :
    collapseWsGo true l = collapseWsGo false (l.dropWhile jsWhitespace) := by
  induction l with
  | nil => rfl
  | cons c cs ih =>
    by_cases hc : jsWhitespace c = true
    · simp [collapseWsGo, hc, List.dropWhile_cons, ih]
    · simp [collapseWsGo, hc, List.dropWhile_cons]

theorem collapseWsGo_false_eq_collapseRuns (l : List Char) :
    collapseWsGo false l = collapseRuns l := by
  have H : ∀ n, ∀ l : List Char, l.length ≤ n →
      collapseWsGo false l = collapseRuns l := by
    intro n
    induction n with
    | zero =>
      intro l hl
      rw [Nat.le_zero, List.length_eq_zero] at hl
      subst hl
      simp [collapseWsGo, collapseRuns]
    | succ n ih =>
      intro l hl
      cases l with
      | nil => simp [collapseWsGo, collapseRuns]
      | cons c cs =>
        by_cases hc : jsWhitespace c = true
        · have hlen : (cs.dropWhile jsWhitespace).length ≤ n :=
            le_trans
              (List.IsSuffix.length_le (List.dropWhile_suffix jsWhitespace))
              (Nat.succ_le_succ_iff.mp hl)
          rw [collapseWsGo, collapseRuns]
          simp [hc, collapseWsGo_true_dropWhile, ih _ hlen]
        · rw [collapseWsGo, collapseRuns]
          simp [hc, ih _ (Nat.succ_le_succ_iff.mp hl)]
  exact H l.length l le_rfl

theorem collapseWsGo_all_clean (b : Bool) (l : List Char)
    (hl : l.all (fun c => !reservedFileChar c) = true) :
    (collapseWsGo b l).all
      (fun c => !reservedFileChar c && !jsWhitespace c) = true := by
  induction l generalizing b with
  | nil => rfl
  | cons c cs ih =>
    simp only [List.all_cons, Bool.and_eq_true] at hl
    by_cases hc : jsWhitespace c = true
    · cases b with
      | true =>
        simpa [collapseWsGo, hc] using ih true hl.2
      | false =>
        have h₁ : (!reservedFileChar '_' && !jsWhitespace '_') = true := by decide
        simpa [collapseWsGo, hc, h₁] using ih true hl.2
    · have hcw : (!jsWhitespace c) = true := by
        simp [hc]
      simpa [collapseWsGo, hc, hl.1, hcw] using ih false hl.2

/-- **C9 counterexample.** The control character `U+0001` survives
sanitization untouched: `generateFilename` strips only the reserved
filename characters `<>:"/\|?*`, not control characters, contradicting the
claim that control characters are stripped. -/
theorem sanitizeName_keeps_control_chars :
    StreamRecorder.sanitizeName ['a', Char.ofNat 1, 'b'] =
      ['a', Char.ofNat 1, 'b'] ∧
    (Char.ofNat 1).toNat < 32 ∧
    Char.ofNat 1 ∈
      StreamRecorder.generateFilename ['a', Char.ofNat 1, 'b']
        "2024-01-02T03:04:05.678Z".toList := by
  refine ⟨?_, ?_, ?_⟩ <;> decide

/-- **C9 (amended).** For every channel name, `generateFilename` combines a
sanitized source label — the reserved filename characters `<>:"/\|?*`
(including both path separators) stripped, every whitespace run collapsed to
a single `_`, truncated to at most 50 characters; control characters are not
removed — with the sortable timestamp and the `.webm` extension. -/
theorem StreamRecorder.generateFilename_spec (channelName iso : List Char) :
    StreamRecorder.generateFilename channelName iso =
      StreamRecorder.sanitizeName channelName ++
        '_' :: (StreamRecorder.tsSanitize iso ++ ".webm".toList) ∧
    StreamRecorder.sanitizeName channelName =
      (collapseRuns (channelName.filter (fun c => !reservedFileChar c))).take 50 ∧
    (StreamRecorder.sanitizeName channelName).all
      (fun c => !reservedFileChar c && !jsWhitespace c) = true ∧
    (StreamRecorder.sanitizeName channelName).length ≤ 50 := by
  refine ⟨rfl, ?_, ?_, ?_⟩
  · unfold StreamRecorder.sanitizeName
    rw [collapseWsGo_false_eq_collapseRuns]
  · have hfilter : (channelName.filter (fun c => !reservedFileChar c)).all
        (fun c => !reservedFileChar c) = true := by
      rw [List.all_eq_true]
      intro x hx
      exact (List.mem_filter.mp hx).2
    have hall := collapseWsGo_all_clean false _ hfilter
    unfold StreamRecorder.sanitizeName
    rw [List.all_eq_true] at hall ⊢
    intro x hx
    exact hall x (List.take_subset 50 _ hx)
  · unfold StreamRecorder.sanitizeName
    rw [List.length_take]
    exact min_le_left 50 _
